import Mathlib

/-!
# Verification of the MCP memory server (`server.py`)

A shallow embedding of the pure request-handling and data-normalization
logic of `server.py`.  Python strings are modelled as `List Char`; the
external Chroma collection is modelled as a list of `(id, document,
metadata)` entries; the external nearest-neighbour query and the uuid
generator are passed in as parameters.
-/

namespace MCPMemory

/-- Python strings, modelled as lists of characters. -/
abbrev Str := List Char

/-- Literal helper: a Lean string literal viewed as a `Str`. -/
def str (s : String) : Str := s.data

/-- Python `s.strip()`: remove leading and trailing whitespace. -/
def pyStrip (s : Str) : Str :=
  ((s.dropWhile Char.isWhitespace).reverse.dropWhile Char.isWhitespace).reverse

/-- Python `s.lower()`. -/
def pyLower (s : Str) : Str := s.map Char.toLower

/-- Python `sep.join(words)` for a one-character separator. -/
def pyJoin (sep : Char) : List Str → Str
  | [] => []
  | [w] => w
  | w :: ws => w ++ sep :: pyJoin sep ws

/-- Python `s.split(sep)` for a one-character separator:
`"".split(sep) == [""]`, and every occurrence of `sep` starts a new segment. -/
def pySplit (sep : Char) : Str → List Str
  | [] => [[]]
  | c :: cs =>
    match pySplit sep cs with
    | [] => [[]]
    | w :: ws => if c = sep then [] :: w :: ws else (c :: w) :: ws

/-- The character class of `_normalize_codename`'s regex `[a-z0-9_-]`. -/
def isCodenameChar (c : Char) : Bool :=
  ('a' ≤ c && c ≤ 'z') || c.isDigit || c == '_' || c == '-'

/-- `_normalize_codename` (server.py:43-47): strip, lowercase, and require a
non-empty match of `[a-z0-9_-]+`; `none` models the raised `ValueError`. -/
def normalizeCodename (codename : Str) : Option Str :=
  let value := pyLower (pyStrip codename)
  if value.isEmpty || !(value.all isCodenameChar) then none else some value

/-- `_normalize_tags` (server.py:82-85): `None`/empty gives `[]`, otherwise
keep the tags that are non-empty and non-blank, stripped. -/
def normalizeTags : Option (List Str) → List Str
  | none => []
  | some tags =>
    if tags.isEmpty then []
    else (tags.filter (fun t => !t.isEmpty && !(pyStrip t).isEmpty)).map pyStrip

/-- The metadata dict stored with each record; the code only ever uses the
`"tags"` key, held as an optional value to model `metadata.get("tags")`. -/
structure Metadata where
  tags : Option Str
deriving DecidableEq, Repr

/-- `_tags_to_metadata` (server.py:87-88): `{"tags": ",".join(tags)}`. -/
def tagsToMetadata (tags : List Str) : Metadata :=
  ⟨some (pyJoin ',' tags)⟩

/-- `_metadata_to_tags` (server.py:90-96): missing metadata decodes to `[]`;
otherwise split the `"tags"` value on commas and drop empty segments. -/
def metadataToTags : Option Metadata → List Str
  | none => []
  | some md =>
    let raw := md.tags.getD []
    if raw.isEmpty then []
    else (pySplit ',' raw).filter (fun t => !t.isEmpty)

/-- One row of the external vector collection: `(id, document, metadata)`. -/
structure Entry where
  eid : Str
  doc : Str
  meta : Option Metadata
deriving DecidableEq, Repr

/-- The external Chroma collection for one codename, as the list of its rows. -/
abbrev Collection := List Entry

/-- The normalized record shape `{id, content, tags}` of `_serialize_memory`. -/
structure MemoryRec where
  id : Str
  content : Str
  tags : List Str
deriving DecidableEq, Repr

/-- `_serialize_memory` (server.py:98-103). -/
def serializeMemory (memoryId : Str) (document : Str) (metadata : Option Metadata) :
    MemoryRec :=
  ⟨memoryId, document, metadataToTags metadata⟩

/-- `collection.get(ids=[memory_id])`: the first row with the given id. -/
def colFind (col : Collection) (memoryId : Str) : Option Entry :=
  col.find? (fun e => decide (e.eid = memoryId))

/-- `_get_memory_by_id` (server.py:105-111). -/
def getMemoryById (col : Collection) (memoryId : Str) : Option MemoryRec :=
  match colFind col memoryId with
  | none => none
  | some e => some (serializeMemory e.eid e.doc e.meta)

/-- `store_memory` (server.py:113-120); the fresh uuid is a parameter. -/
def storeMemory (col : Collection) (freshId : Str) (content : Str) (tags : List Str) :
    Option MemoryRec × Collection :=
  let col' := col ++ [⟨freshId, content, some (tagsToMetadata tags)⟩]
  (getMemoryById col' freshId, col')

/-- `list_memories` (server.py:122-131). -/
def listMemories (col : Collection) : List MemoryRec :=
  col.map (fun e => serializeMemory e.eid e.doc e.meta)

/-- `update_memory` (server.py:144-155): read the existing record, keep any
field that was not supplied, re-encode the tags, write back, re-read. -/
def updateMemory (col : Collection) (memoryId : Str) (content : Option Str)
    (tags : Option (List Str)) : Option MemoryRec × Collection :=
  match getMemoryById col memoryId with
  | none => (none, col)
  | some existing =>
    let newContent := match content with | some c => c | none => existing.content
    let newTags := match tags with | some t => normalizeTags (some t) | none => existing.tags
    let col' := col.map (fun e =>
      if decide (e.eid = memoryId) then ⟨e.eid, newContent, some (tagsToMetadata newTags)⟩
      else e)
    (getMemoryById col' memoryId, col')

/-- `delete_memory` (server.py:157-162): look up first, then remove. -/
def deleteMemory (col : Collection) (memoryId : Str) : Bool × Collection :=
  match getMemoryById col memoryId with
  | none => (false, col)
  | some _ => (true, col.filter (fun e => !(decide (e.eid = memoryId))))

/-! ## Collection registry (`list_project_codenames`) -/

/-- Lexicographic strict order on strings by code point, as Python compares. -/
def strLt : Str → Str → Bool
  | [], [] => false
  | [], _ :: _ => true
  | _ :: _, [] => false
  | a :: as, b :: bs => decide (a < b) || (decide (a = b) && strLt as bs)

/-- Non-strict lexicographic order. -/
def strLe (a b : Str) : Bool := strLt a b || decide (a = b)

/-- Insert into a sorted list (the step of insertion sort). -/
def insertSorted (x : Str) : List Str → List Str
  | [] => [x]
  | y :: ys => if strLe x y then x :: y :: ys else y :: insertSorted x ys

/-- Python `sorted(...)` on a list of strings. -/
def pySorted (l : List Str) : List Str := l.foldr insertSorted []

/-- Python `sorted(set(...))`: deduplicate, then sort. -/
def pySortedSet (l : List Str) : List Str := pySorted l.dedup

/-- The process-wide registry state: the `_TEST_MODE` flag and the keys of
the `_collections` cache. -/
structure RegistryState where
  testMode : Bool
  cachedCodenames : List Str

/-- `list_project_codenames` (server.py:164-179).  The external
`client.list_collections()` call is passed in as `listedCollections`:
`Except.error` models a raised exception, and each listed collection is
reduced to its optional `name` string (covering both the attribute and the
dict shape the code probes).  The `name.replace("project_memory_", "", 1)`
is applied under a `startswith` guard, so it is exactly dropping the first
15 characters of the prefix. -/
def listProjectCodenames (st : RegistryState)
    (listedCollections : Except Unit (List (Option Str))) : List Str :=
  let names := if st.testMode then st.cachedCodenames else []
  match listedCollections with
  | .error _ => pySortedSet names
  | .ok cols =>
    let found := cols.filterMap (fun n? =>
      match n? with
      | some n =>
        if (str "project_memory_").isPrefixOf n then
          some (n.drop (str "project_memory_").length)
        else none
      | none => none)
    pySortedSet (names ++ found)

/-! ## REST adapter -/

/-- A FastAPI `HTTPException`, reduced to its status code and detail text. -/
structure HErr where
  status : Int
  detail : Str
deriving DecidableEq, Repr

/-- The `StoreRequest` pydantic model (server.py:62-64). -/
structure StoreRequest where
  content : Str
  tags : List Str
deriving DecidableEq, Repr

/-- The `UpdateRequest` pydantic model (server.py:70-72). -/
structure UpdateRequest where
  content : Option Str
  tags : Option (List Str)
deriving DecidableEq, Repr

deriving instance DecidableEq for Except

/-- `api_create_memory` (server.py:276-286); the fresh uuid is a parameter. -/
def apiCreateMemory (freshId : Str) (codename : Str) (body : StoreRequest)
    (col : Collection) : Except HErr (Option MemoryRec) × Collection :=
  match normalizeCodename codename with
  | none => (.error ⟨400, str "invalid codename"⟩, col)
  | some _ =>
    let content := pyStrip body.content
    if content.isEmpty then (.error ⟨400, str "content is required"⟩, col)
    else
      let tags := normalizeTags (some body.tags)
      match storeMemory col freshId content tags with
      | (mem, col') => (.ok mem, col')

/-- `api_update_memory` (server.py:288-301). -/
def apiUpdateMemory (codename memoryId : Str) (body : UpdateRequest)
    (col : Collection) : Except HErr MemoryRec × Collection :=
  match normalizeCodename codename with
  | none => (.error ⟨400, str "invalid codename"⟩, col)
  | some _ =>
    if body.content.isNone && body.tags.isNone then
      (.error ⟨400, str "content or tags is required"⟩, col)
    else
      let content := body.content.map pyStrip
      let tags := body.tags.map (fun ts => normalizeTags (some ts))
      match updateMemory col memoryId content tags with
      | (none, col') => (.error ⟨404, str "memory not found"⟩, col')
      | (some m, col') => (.ok m, col')

/-- `api_delete_memory` (server.py:303-312); `Except.ok ()` models the
`{"deleted": True}` payload. -/
def apiDeleteMemory (codename memoryId : Str) (col : Collection) :
    Except HErr Unit × Collection :=
  match normalizeCodename codename with
  | none => (.error ⟨400, str "invalid codename"⟩, col)
  | some _ =>
    match deleteMemory col memoryId with
    | (false, col') => (.error ⟨404, str "memory not found"⟩, col')
    | (true, col') => (.ok (), col')

/-! ## JSON-RPC ("MCP") adapter -/

/-- The argument object of a `tools/call`, with exactly the keys the
dispatcher reads; a missing key is `none`. -/
structure ToolArgs where
  content : Option Str
  tags : Option (List Str)
  query : Option Str
  nResults : Option Int
  id : Option Str
deriving DecidableEq, Repr

/-- The `params` object, with exactly the keys the dispatcher reads. -/
structure RpcParams where
  protocolVersion : Option Str
  cursor : Option Str
  name : Option Str
  uri : Option Str
  arguments : Option ToolArgs
deriving DecidableEq, Repr

/-- A parsed JSON-RPC request body: `method`, optional correlation `id`, and
the optional `params` object. -/
structure RpcMsg where
  method : Option Str
  rpcId : Option Str
  params : Option RpcParams
deriving DecidableEq, Repr

/-- `msg.get("params") or {}` when `params` is absent. -/
def emptyParams : RpcParams := ⟨none, none, none, none, none⟩

/-- `params.get("arguments") or {}` when `arguments` is absent. -/
def emptyArgs : ToolArgs := ⟨none, none, none, none, none⟩

/-- The result payloads the dispatcher can return, by branch. -/
inductive RpcResult where
  | initializeResult (protocolVersion : Str)
  | toolsList
  | resourcesList (uri : Str)
  | templatesList
  | toolText (text : Str) (isErr : Bool)
  | searchResult (query : Str) (results : List MemoryRec)
  | allResult (results : List MemoryRec)
  | readResult (uri : Str) (results : List MemoryRec)
deriving DecidableEq, Repr

/-- The HTTP response of the `mcp` handler: an empty `204` acknowledgment, a
JSON-RPC result body, a JSON-RPC error body, or an unhandled Python
exception (`crash`, provably unreachable in the modelled branches). -/
inductive HttpResp where
  | noBody
  | jsonOk (rpcId : Option Str) (result : RpcResult)
  | jsonErr (rpcId : Option Str) (code : Int) (message : Str)
  | crash
deriving DecidableEq, Repr

/-- The local `ok(result)` closure (server.py:340-344). -/
def mcpOk : Option Str → RpcResult → HttpResp
  | none, _ => .noBody
  | some i, r => .jsonOk (some i) r

/-- The local `err(code, message)` closure (server.py:346-349). -/
def mcpErr : Option Str → Int → Str → HttpResp
  | none, _, _ => .noBody
  | some i, c, m => .jsonErr (some i) c m

/-- Python `if cursor:`: a string option is truthy iff present and non-empty. -/
def pyTruthy : Option Str → Bool
  | none => false
  | some s => !s.isEmpty

/-- Python `int(x or d)` for an optional integer argument: `None` and `0`
are falsy and give the default. -/
def pyIntOr (x : Option Int) (d : Int) : Int :=
  match x with
  | none => d
  | some n => if n = 0 then d else n

/-- The resource URI `f"memory://project_memory/\x7bcodename\x7d/all"`. -/
def allResourceUri (cn : Str) : Str :=
  str "memory://project_memory/" ++ cn ++ str "/all"

/-- The `mcp` endpoint (server.py:330-470).  External effects are
parameters: `queryFn` is the vector store's nearest-neighbour query (already
serialized, as `search_memories` returns it) and `freshId` the uuid that
`store_memory` would generate.  The collection for the codename is `col`. -/
def mcpHandle (queryFn : Str → Int → List MemoryRec) (freshId : Str)
    (codename : Str) (msg : RpcMsg) (col : Collection) : HttpResp × Collection :=
  match normalizeCodename codename with
  | none => (.jsonErr none (-32602) (str "invalid codename"), col)
  | some cn =>
    let rpcId := msg.rpcId
    if msg.method = some (str "initialize") then
      let params := msg.params.getD emptyParams
      let protocolVersion := params.protocolVersion.getD (str "2025-11-25")
      (mcpOk rpcId (.initializeResult protocolVersion), col)
    else if msg.method = some (str "initialized") then
      (.noBody, col)
    else if msg.method = some (str "tools/list") then
      (mcpOk rpcId .toolsList, col)
    else if msg.method = some (str "resources/list") then
      let params := msg.params.getD emptyParams
      if pyTruthy params.cursor then
        (mcpErr rpcId (-32602) (str "Invalid cursor"), col)
      else
        (mcpOk rpcId (.resourcesList (allResourceUri cn)), col)
    else if msg.method = some (str "resources/templates/list") then
      (mcpOk rpcId .templatesList, col)
    else if msg.method = some (str "tools/call") then
      let params := msg.params.getD emptyParams
      let name := params.name
      let args := params.arguments.getD emptyArgs
      if name = some (str "memory.store") then
        let content := pyStrip (args.content.getD [])
        let tags := normalizeTags (some (args.tags.getD []))
        if content.isEmpty then
          (mcpOk rpcId (.toolText (str "content is required") true), col)
        else
          match storeMemory col freshId content tags with
          | (some memory, col') =>
            (mcpOk rpcId (.toolText
              (str "stored id=" ++ memory.id ++ str " tags=" ++ pyJoin ',' memory.tags)
              false), col')
          | (none, col') => (.crash, col')
      else if name = some (str "memory.search") then
        let query := pyStrip (args.query.getD [])
        let nResults := pyIntOr args.nResults 5
        if query.isEmpty then
          (mcpOk rpcId (.toolText (str "query is required") true), col)
        else
          (mcpOk rpcId (.searchResult query (queryFn query nResults)), col)
      else if name = some (str "memory.update") then
        let memoryId := pyStrip (args.id.getD [])
        if memoryId.isEmpty then
          (mcpOk rpcId (.toolText (str "id is required") true), col)
        else if args.content.isNone && args.tags.isNone then
          (mcpOk rpcId (.toolText (str "content or tags is required") true), col)
        else
          let content := args.content.map pyStrip
          let tags := args.tags.map (fun t => normalizeTags (some t))
          match updateMemory col memoryId content tags with
          | (none, col') =>
            (mcpOk rpcId (.toolText (str "memory not found") true), col')
          | (some _, col') =>
            (mcpOk rpcId (.toolText (str "updated id=" ++ memoryId) false), col')
      else if name = some (str "memory.delete") then
        let memoryId := pyStrip (args.id.getD [])
        if memoryId.isEmpty then
          (mcpOk rpcId (.toolText (str "id is required") true), col)
        else
          match deleteMemory col memoryId with
          | (false, col') =>
            (mcpOk rpcId (.toolText (str "memory not found") true), col')
          | (true, col') =>
            (mcpOk rpcId (.toolText (str "deleted id=" ++ memoryId) false), col')
      else if name = some (str "memory.all") then
        (mcpOk rpcId (.allResult (listMemories col)), col)
      else
        (mcpErr rpcId (-32602)
          (str "Unknown tool: " ++ name.getD (str "None")), col)
    else if msg.method = some (str "resources/read") then
      let params := msg.params.getD emptyParams
      let uri := params.uri
      if uri = some (allResourceUri cn) then
        (mcpOk rpcId (.readResult (allResourceUri cn) (listMemories col)), col)
      else
        (mcpErr rpcId (-32002)
          (str "Resource not found: " ++ (uri.getD (str "None"))), col)
    else
      (mcpErr rpcId (-32601)
        (str "Method not found: " ++ (msg.method.getD (str "None"))), col)

/-! ## Lemmas about the tag codec -/

theorem pySplit_cons (sep c : Char) (cs : Str) :
    pySplit sep (c :: cs) =
      match pySplit sep cs with
      | [] => [[]]
      | w :: ws => if c = sep then [] :: w :: ws else (c :: w) :: ws := rfl

theorem pySplit_ne_nil (sep : Char) (l : Str) : pySplit sep l ≠ [] := by
  cases l with
  | nil => simp [pySplit]
  | cons c cs =>
    unfold pySplit
    cases h : pySplit sep cs with
    | nil => simp
    | cons w ws =>
      by_cases hc : c = sep <;> simp [hc]

theorem pySplit_no_sep (sep : Char) (w : Str) (h : sep ∉ w) :
    pySplit sep w = [w] := by
  induction w with
  | nil => rfl
  | cons c cs ih =>
    have hc : c ≠ sep := fun hceq => h (hceq ▸ List.mem_cons_self c cs)
    have hcs : sep ∉ cs := fun hm => h (List.mem_cons_of_mem c hm)
    unfold pySplit
    rw [ih hcs]
    simp [hc]

theorem pySplit_append_sep (sep : Char) (w l : Str) (h : sep ∉ w) :
    pySplit sep (w ++ sep :: l) = w :: pySplit sep l := by
  induction w with
  | nil =>
    cases hsp : pySplit sep l with
    | nil => exact absurd hsp (pySplit_ne_nil sep l)
    | cons x xs =>
      simp only [List.nil_append]
      rw [pySplit_cons, hsp]
      simp
  | cons c cs ih =>
    have hc : c ≠ sep := fun hceq => h (hceq ▸ List.mem_cons_self c cs)
    have hcs : sep ∉ cs := fun hm => h (List.mem_cons_of_mem c hm)
    simp only [List.cons_append]
    rw [pySplit_cons, ih hcs]
    simp [hc]

theorem pySplit_pyJoin (sep : Char) (L : List Str)
    (h : ∀ w ∈ L, w ≠ [] ∧ sep ∉ w) :
    (pySplit sep (pyJoin sep L)).filter (fun t => !t.isEmpty) = L := by
  induction L with
  | nil => rfl
  | cons w ws ih =>
    have hw := h w (List.mem_cons_self w ws)
    have hwe : w.isEmpty = false := by
      cases w with
      | nil => exact absurd rfl hw.1
      | cons a as => rfl
    cases ws with
    | nil =>
      simp only [pyJoin]
      rw [pySplit_no_sep sep w hw.2]
      simp [List.filter_cons, hwe]
    | cons w2 ws2 =>
      have hrest : ∀ v ∈ w2 :: ws2, v ≠ [] ∧ sep ∉ v := by
        intro v hv
        exact h v (List.mem_cons_of_mem w hv)
      simp only [pyJoin]
      rw [pySplit_append_sep sep w _ hw.2]
      have hihres : (pySplit sep (pyJoin sep (w2 :: ws2))).filter (fun t => !t.isEmpty)
          = w2 :: ws2 := ih hrest
      simp [List.filter_cons, hwe, hihres]

theorem tags_roundtrip (L : List Str) (h : ∀ w ∈ L, w ≠ [] ∧ ',' ∉ w) :
    metadataToTags (some (tagsToMetadata L)) = L := by
  cases L with
  | nil => rfl
  | cons w ws =>
    have hw := h w (List.mem_cons_self w ws)
    have hraw : ¬(pyJoin ',' (w :: ws)).isEmpty := by
      cases ws with
      | nil =>
        simpa [pyJoin, List.isEmpty_eq_true] using hw.1
      | cons w2 ws2 =>
        simp only [pyJoin]
        cases w <;> simp
    simp only [metadataToTags, tagsToMetadata, Option.getD]
    rw [if_neg (by simpa using hraw)]
    exact pySplit_pyJoin ',' (w :: ws) h

theorem pyStrip_subset {c : Char} {s : Str} (h : c ∈ pyStrip s) : c ∈ s := by
  unfold pyStrip at h
  rw [List.mem_reverse] at h
  have h1 := (List.dropWhile_sublist (l := (s.dropWhile Char.isWhitespace).reverse)
    (p := Char.isWhitespace)).mem h
  rw [List.mem_reverse] at h1
  exact (List.dropWhile_sublist (l := s) (p := Char.isWhitespace)).mem h1

theorem pyStrip_nil : pyStrip [] = [] := rfl

theorem mem_pySplit (sep : Char) {w : Str} {l : Str} (h : w ∈ pySplit sep l) :
    sep ∉ w := by
  induction l generalizing w with
  | nil =>
    simp only [pySplit, List.mem_singleton] at h
    subst h
    simp
  | cons c cs ih =>
    cases hsp : pySplit sep cs with
    | nil => exact absurd hsp (pySplit_ne_nil sep cs)
    | cons x xs =>
      simp only [pySplit_cons, hsp] at h
      by_cases hc : c = sep
      · rw [if_pos hc] at h
        rcases List.mem_cons.mp h with rfl | h2
        · simp
        · exact ih (by rw [hsp]; exact h2)
      · rw [if_neg hc] at h
        rcases List.mem_cons.mp h with rfl | h2
        · intro hmem
          rcases List.mem_cons.mp hmem with rfl | hmem2
          · exact hc rfl
          · have hx : x ∈ pySplit sep cs := by rw [hsp]; exact List.mem_cons_self x xs
            exact ih hx hmem2
        · have hw2 : w ∈ pySplit sep cs := by
            rw [hsp]; exact List.mem_cons_of_mem x h2
          exact ih hw2

theorem mem_metadataToTags {w : Str} {m : Option Metadata}
    (h : w ∈ metadataToTags m) : w ≠ [] ∧ ',' ∉ w := by
  cases m with
  | none => simp [metadataToTags] at h
  | some md =>
    simp only [metadataToTags] at h
    split at h
    · simp at h
    · have hmem := List.mem_filter.mp h
      refine ⟨?_, mem_pySplit ',' hmem.1⟩
      have := hmem.2
      simp only [Bool.not_eq_true'] at this
      intro hnil
      subst hnil
      simp at this

/-- Decoding is a retraction of encoding on its own image: re-encoding a
decoded tag list and decoding again changes nothing. -/
theorem metadataToTags_reencode (m : Option Metadata) :
    metadataToTags (some (tagsToMetadata (metadataToTags m))) = metadataToTags m :=
  tags_roundtrip (metadataToTags m) (fun _ hw => mem_metadataToTags hw)

theorem mem_normalizeTags {w : Str} {T : List Str}
    (h : w ∈ normalizeTags (some T)) : ∃ t ∈ T, w = pyStrip t ∧ w ≠ [] := by
  simp only [normalizeTags] at h
  split at h
  · simp at h
  · rcases List.mem_map.mp h with ⟨t, ht, rfl⟩
    have hf := List.mem_filter.mp ht
    refine ⟨t, hf.1, rfl, ?_⟩
    have := hf.2
    simp only [Bool.and_eq_true, Bool.not_eq_true'] at this
    intro hnil
    rw [hnil] at this
    simp at this

/-- Normalized comma-free tag lists survive the encode/decode round trip. -/
theorem normalizeTags_roundtrip (T : List Str) (h : ∀ t ∈ T, ',' ∉ t) :
    metadataToTags (some (tagsToMetadata (normalizeTags (some T)))) =
      normalizeTags (some T) := by
  apply tags_roundtrip
  intro w hw
  rcases mem_normalizeTags hw with ⟨t, ht, rfl, hne⟩
  exact ⟨hne, fun hmem => h t ht (pyStrip_subset hmem)⟩

/-! ## Lemmas about collection lookups -/

theorem colFind_append_of_none {col : Collection} {i : Str}
    (h : colFind col i = none) (l : Collection) :
    colFind (col ++ l) i = colFind l i := by
  induction col with
  | nil => rfl
  | cons e col ih =>
    unfold colFind at h ih ⊢
    by_cases he : e.eid = i
    · rw [List.find?_cons_of_pos _ (by simp [he])] at h
      exact absurd h (by simp)
    · rw [List.find?_cons_of_neg _ (by simp [he])] at h
      rw [List.cons_append, List.find?_cons_of_neg _ (by simp [he])]
      exact ih h

theorem colFind_single_self (e : Entry) : colFind [e] e.eid = some e := by
  unfold colFind
  rw [List.find?_cons_of_pos _ (by simp)]

theorem getMemoryById_none_iff {col : Collection} {i : Str} :
    getMemoryById col i = none ↔ colFind col i = none := by
  unfold getMemoryById
  cases colFind col i <;> simp

theorem colFind_eid {col : Collection} {i : Str} {e : Entry}
    (h : colFind col i = some e) : e.eid = i := by
  have := List.find?_some h
  exact of_decide_eq_true this

/-- Looking up an id after the in-place update of `collection.update`
returns the first matching row with its document and metadata replaced. -/
theorem colFind_update {col : Collection} {i : Str} {e : Entry}
    (h : colFind col i = some e) (d : Str) (m : Option Metadata) :
    colFind (col.map (fun x =>
        if decide (x.eid = i) then ⟨x.eid, d, m⟩ else x)) i = some ⟨e.eid, d, m⟩ := by
  induction col with
  | nil => simp [colFind] at h
  | cons a col ih =>
    unfold colFind at h ih ⊢
    simp only [List.map_cons]
    by_cases ha : a.eid = i
    · rw [List.find?_cons_of_pos _ (by simp [ha])] at h
      injection h with h
      subst h
      rw [show (if decide (a.eid = i) = true then (⟨a.eid, d, m⟩ : Entry) else a)
          = ⟨a.eid, d, m⟩ from by simp [ha]]
      rw [List.find?_cons_of_pos _ (by simp [ha])]
    · rw [List.find?_cons_of_neg _ (by simp [ha])] at h
      rw [show (if decide (a.eid = i) = true then (⟨a.eid, d, m⟩ : Entry) else a)
          = a from by simp [ha]]
      rw [List.find?_cons_of_neg _ (by simp [ha])]
      exact ih h

/-- After `collection.delete(ids=[i])` no row with id `i` remains. -/
theorem colFind_filter_ne (col : Collection) (i : Str) :
    colFind (col.filter (fun e => !(decide (e.eid = i)))) i = none := by
  unfold colFind
  rw [List.find?_eq_none]
  intro a ha
  have hmem := (List.mem_filter.mp ha).2
  simp only [Bool.not_eq_true'] at hmem
  simp [hmem]

/-- `store_memory` always finds the row it has just added: its result record
is never `None`. -/
theorem storeMemory_fst_isSome (col : Collection) (freshId content : Str)
    (tags : List Str) : (storeMemory col freshId content tags).1.isSome := by
  unfold storeMemory getMemoryById
  induction col with
  | nil =>
    simp only [List.nil_append]
    rw [colFind_single_self ⟨freshId, content, some (tagsToMetadata tags)⟩]
    simp
  | cons a col ih =>
    simp only [List.cons_append]
    unfold colFind at ih ⊢
    by_cases ha : a.eid = freshId
    · rw [List.find?_cons_of_pos _ (by simp [ha])]
      simp
    · rw [List.find?_cons_of_neg _ (by simp [ha])]
      exact ih

/-- `store_memory` never loses the stored row: the read-back is some record. -/
theorem storeMemory_eq_some (col : Collection) (freshId content : Str)
    (tags : List Str) :
    ∃ m col', storeMemory col freshId content tags = (some m, col') := by
  have h := storeMemory_fst_isSome col freshId content tags
  cases hm : (storeMemory col freshId content tags).1 with
  | none => rw [hm] at h; simp at h
  | some m => exact ⟨m, (storeMemory col freshId content tags).2, by rw [← hm]⟩

/-- Reading back a freshly appended row returns exactly that row. -/
theorem getMemoryById_after_store (col : Collection) (freshId content : Str)
    (md : Option Metadata) (hfresh : colFind col freshId = none) :
    getMemoryById (col ++ [⟨freshId, content, md⟩]) freshId =
      some ⟨freshId, content, metadataToTags md⟩ := by
  unfold getMemoryById
  rw [colFind_append_of_none hfresh, colFind_single_self ⟨freshId, content, md⟩]
  rfl

/-- What `update_memory` computes on an existing row, in closed form. -/
theorem updateMemory_spec (col : Collection) (memoryId : Str)
    (c? : Option Str) (t? : Option (List Str)) (e : Entry)
    (hfind : colFind col memoryId = some e) :
    updateMemory col memoryId c? t? =
      (some ⟨e.eid,
          (match c? with | some c => c | none => e.doc),
          metadataToTags (some (tagsToMetadata
            (match t? with
             | some t => normalizeTags (some t)
             | none => metadataToTags e.meta)))⟩,
        col.map (fun x => if decide (x.eid = memoryId) then
          ⟨x.eid,
            (match c? with | some c => c | none => e.doc),
            some (tagsToMetadata
              (match t? with
               | some t => normalizeTags (some t)
               | none => metadataToTags e.meta))⟩ else x)) := by
  unfold updateMemory
  unfold getMemoryById
  rw [hfind]
  simp only [serializeMemory]
  rw [colFind_update hfind]

/-! ## Claims -/

/-- C1: for every list of tag strings in which no tag contains a comma and no
tag is empty after trimming, decoding the metadata produced by encoding the
list yields exactly the list, in the same order. -/
theorem tag_codec_roundtrip (T : List Str)
    (h : ∀ t ∈ T, ',' ∉ t ∧ pyStrip t ≠ []) :
    metadataToTags (some (tagsToMetadata T)) = T := by
  apply tags_roundtrip
  intro w hw
  have hh := h w hw
  exact ⟨fun hnil => hh.2 (by rw [hnil]; rfl), hh.1⟩

/-- Witness for C1 at the concrete tag list `["alpha", "b c"]`. -/
theorem tag_codec_roundtrip_witness :
    (∀ t ∈ [str "alpha", str "b c"], ',' ∉ t ∧ pyStrip t ≠ []) ∧
      metadataToTags (some (tagsToMetadata [str "alpha", str "b c"])) =
        [str "alpha", str "b c"] :=
  ⟨by decide, tag_codec_roundtrip [str "alpha", str "b c"] (by decide)⟩

/-- C2 counterexample: storing content `"x"` with the single tag `"a,b"`
(which contains a comma) and reading the record back yields tags
`["a", "b"]`, not the normalization `["a,b"]` of the input tag list. -/
theorem store_then_get_comma_counterexample :
    (apiCreateMemory (str "m1") (str "proj") ⟨str "x", [str "a,b"]⟩ []).1 =
      Except.ok (some ⟨str "m1", str "x", [str "a", str "b"]⟩) ∧
    getMemoryById (apiCreateMemory (str "m1") (str "proj")
        ⟨str "x", [str "a,b"]⟩ []).2 (str "m1") =
      some ⟨str "m1", str "x", [str "a", str "b"]⟩ ∧
    normalizeTags (some [str "a,b"]) = [str "a,b"] ∧
    ([str "a", str "b"] : List Str) ≠ [str "a,b"] := by decide

/-- C2 (amended: additionally, no tag contains a comma): storing non-blank
content `C` with tags `T` under a fresh id and reading the record back by id
yields content `C` stripped and tags `normalize(T)`, in order. -/
theorem store_then_get (codename cn freshId : Str) (body : StoreRequest)
    (col : Collection)
    (hcn : normalizeCodename codename = some cn)
    (hcontent : pyStrip body.content ≠ [])
    (htags : ∀ t ∈ body.tags, ',' ∉ t)
    (hfresh : getMemoryById col freshId = none) :
    apiCreateMemory freshId codename body col =
      (Except.ok (some ⟨freshId, pyStrip body.content,
          normalizeTags (some body.tags)⟩),
        col ++ [⟨freshId, pyStrip body.content,
          some (tagsToMetadata (normalizeTags (some body.tags)))⟩]) ∧
    getMemoryById (apiCreateMemory freshId codename body col).2 freshId =
      some ⟨freshId, pyStrip body.content, normalizeTags (some body.tags)⟩ := by
  have hfind : colFind col freshId = none := by
    unfold getMemoryById at hfresh
    cases hf : colFind col freshId with
    | none => rfl
    | some e => rw [hf] at hfresh; simp at hfresh
  have hne : (pyStrip body.content).isEmpty = false := by
    cases hsc : pyStrip body.content with
    | nil => exact absurd hsc hcontent
    | cons a as => rfl
  have hmain : apiCreateMemory freshId codename body col =
      (Except.ok (some ⟨freshId, pyStrip body.content,
          normalizeTags (some body.tags)⟩),
        col ++ [⟨freshId, pyStrip body.content,
          some (tagsToMetadata (normalizeTags (some body.tags)))⟩]) := by
    simp only [apiCreateMemory, hcn, hne, storeMemory, Bool.false_eq_true,
      if_false]
    rw [getMemoryById_after_store col freshId (pyStrip body.content)
      (some (tagsToMetadata (normalizeTags (some body.tags)))) hfind]
    rw [normalizeTags_roundtrip body.tags htags]
  refine ⟨hmain, ?_⟩
  rw [hmain]
  rw [getMemoryById_after_store col freshId (pyStrip body.content)
    (some (tagsToMetadata (normalizeTags (some body.tags)))) hfind]
  rw [normalizeTags_roundtrip body.tags htags]

/-- Witness for C2 at codename `"proj"`, content `" hi "`, tags
`[" a ", "b"]`, fresh id `"m1"`, empty collection. -/
theorem store_then_get_witness :
    (normalizeCodename (str "proj") = some (str "proj") ∧
      pyStrip (str " hi ") ≠ [] ∧
      (∀ t ∈ [str " a ", str "b"], ',' ∉ t) ∧
      getMemoryById [] (str "m1") = none) ∧
    (apiCreateMemory (str "m1") (str "proj") ⟨str " hi ", [str " a ", str "b"]⟩ [] =
      (Except.ok (some ⟨str "m1", pyStrip (str " hi "),
          normalizeTags (some [str " a ", str "b"])⟩),
        [] ++ [⟨str "m1", pyStrip (str " hi "),
          some (tagsToMetadata (normalizeTags (some [str " a ", str "b"])))⟩]) ∧
    getMemoryById (apiCreateMemory (str "m1") (str "proj")
        ⟨str " hi ", [str " a ", str "b"]⟩ []).2 (str "m1") =
      some ⟨str "m1", pyStrip (str " hi "),
        normalizeTags (some [str " a ", str "b"])⟩) :=
  ⟨⟨by decide, by decide, by decide, by decide⟩,
    store_then_get (str "proj") (str "proj") (str "m1")
      ⟨str " hi ", [str " a ", str "b"]⟩ []
      (by decide) (by decide) (by decide) (by decide)⟩

/-- C3 counterexample: with `_TEST_MODE` unset and the cache holding
`"alpha"`, an enumeration failure makes `list_project_codenames` return the
empty list, not the cached codenames. -/
theorem list_codenames_failure_counterexample :
    listProjectCodenames ⟨false, [str "alpha"]⟩ (Except.error ()) = [] ∧
    listProjectCodenames ⟨false, [str "alpha"]⟩ (Except.error ()) ≠
      pySortedSet [str "alpha"] := by decide

/-- C3 (amended): on enumeration failure `list_project_codenames` never
propagates the error; it returns the sorted cached codenames when the
in-process test mode flag is set, and the empty list otherwise. -/
theorem list_codenames_failure_fallback (st : RegistryState) :
    listProjectCodenames st (Except.error ()) =
      if st.testMode then pySortedSet st.cachedCodenames else [] := by
  unfold listProjectCodenames
  cases h : st.testMode with
  | false => simp [pySortedSet, pySorted, List.dedup_nil]
  | true => simp

/-- C4 counterexample: a notification (no correlation id) sent to the MCP
endpoint with an invalid codename receives a JSON error body with a null id,
not an empty acknowledgment. -/
theorem notification_invalid_codename_counterexample :
    (mcpHandle (fun _ _ => []) [] (str "!")
        ⟨some (str "tools/list"), none, none⟩ []).1 ≠ HttpResp.noBody ∧
    (mcpHandle (fun _ _ => []) [] (str "!")
        ⟨some (str "tools/list"), none, none⟩ []).1 =
      HttpResp.jsonErr none (-32602) (str "invalid codename") := by decide

/-- C4 (amended: restricted to requests whose codename passes validation):
for every request whose correlation id is absent, every branch of the
dispatcher emits no response body, whether it succeeds or fails; an invalid
codename, however, is answered with an error body even for notifications. -/
theorem notifications_no_body (queryFn : Str → Int → List MemoryRec)
    (freshId codename cn : Str) (msg : RpcMsg) (col : Collection)
    (hcn : normalizeCodename codename = some cn)
    (hid : msg.rpcId = none) :
    (mcpHandle queryFn freshId codename msg col).1 = HttpResp.noBody := by
  obtain ⟨m0, col0, hst⟩ := storeMemory_eq_some col freshId
    (pyStrip (((msg.params.getD emptyParams).arguments.getD emptyArgs).content.getD []))
    (normalizeTags (some (((msg.params.getD emptyParams).arguments.getD emptyArgs).tags.getD [])))
  simp only [mcpHandle, hcn, hid, mcpOk, mcpErr, hst]
  by_cases h1 : msg.method = some (str "initialize")
  · rw [if_pos h1]
  rw [if_neg h1]
  by_cases h2 : msg.method = some (str "initialized")
  · rw [if_pos h2]
  rw [if_neg h2]
  by_cases h3 : msg.method = some (str "tools/list")
  · rw [if_pos h3]
  rw [if_neg h3]
  by_cases h4 : msg.method = some (str "resources/list")
  · rw [if_pos h4]
    split <;> rfl
  rw [if_neg h4]
  by_cases h5 : msg.method = some (str "resources/templates/list")
  · rw [if_pos h5]
  rw [if_neg h5]
  by_cases h6 : msg.method = some (str "tools/call")
  · rw [if_pos h6]
    by_cases n1 : (msg.params.getD emptyParams).name = some (str "memory.store")
    · rw [if_pos n1]
      split <;> rfl
    rw [if_neg n1]
    by_cases n2 : (msg.params.getD emptyParams).name = some (str "memory.search")
    · rw [if_pos n2]
      split <;> rfl
    rw [if_neg n2]
    by_cases n3 : (msg.params.getD emptyParams).name = some (str "memory.update")
    · rw [if_pos n3]
      repeat' split
      all_goals rfl
    rw [if_neg n3]
    by_cases n4 : (msg.params.getD emptyParams).name = some (str "memory.delete")
    · rw [if_pos n4]
      repeat' split
      all_goals rfl
    rw [if_neg n4]
    by_cases n5 : (msg.params.getD emptyParams).name = some (str "memory.all")
    · rw [if_pos n5]
    rw [if_neg n5]
  rw [if_neg h6]
  by_cases h7 : msg.method = some (str "resources/read")
  · rw [if_pos h7]
    split <;> rfl
  rw [if_neg h7]

/-- Witness for C4 (amended) at a concrete notification. -/
theorem notifications_no_body_witness :
    (normalizeCodename (str "p") = some (str "p") ∧
      (⟨some (str "tools/list"), none, none⟩ : RpcMsg).rpcId = none) ∧
    (mcpHandle (fun _ _ => []) [] (str "p")
        ⟨some (str "tools/list"), none, none⟩ []).1 = HttpResp.noBody :=
  ⟨⟨by decide, rfl⟩,
    notifications_no_body (fun _ _ => []) [] (str "p") (str "p")
      ⟨some (str "tools/list"), none, none⟩ [] (by decide) rfl⟩

/-- C5: storing content that is blank after trimming fails with a 400
validation error on the REST route and a tool-level `isError` result on the
JSON-RPC route; in both cases the collection is untouched, so the
`list_memories` count is unchanged. -/
theorem store_blank_content_rejected (codename cn freshId rid : Str)
    (body : StoreRequest) (col : Collection)
    (queryFn : Str → Int → List MemoryRec)
    (hcn : normalizeCodename codename = some cn)
    (hblank : pyStrip body.content = []) :
    apiCreateMemory freshId codename body col =
      (Except.error ⟨400, str "content is required"⟩, col) ∧
    (listMemories (apiCreateMemory freshId codename body col).2).length =
      (listMemories col).length ∧
    mcpHandle queryFn freshId codename
      ⟨some (str "tools/call"), some rid,
        some ⟨none, none, some (str "memory.store"), none,
          some ⟨some body.content, some body.tags, none, none, none⟩⟩⟩ col =
      (HttpResp.jsonOk (some rid) (.toolText (str "content is required") true),
        col) := by
  have hie : (pyStrip body.content).isEmpty = true := by rw [hblank]; rfl
  have h1 : apiCreateMemory freshId codename body col =
      (Except.error ⟨400, str "content is required"⟩, col) := by
    simp only [apiCreateMemory, hcn, hie, if_true]
  refine ⟨h1, by rw [h1], ?_⟩
  simp only [mcpHandle, hcn, Option.getD_some, hie, mcpOk, if_true]
  rw [if_neg (by decide), if_neg (by decide), if_neg (by decide),
    if_neg (by decide), if_neg (by decide)]

/-- Witness for C5 at blank content `"  "`. -/
theorem store_blank_content_rejected_witness :
    (normalizeCodename (str "p") = some (str "p") ∧
      pyStrip (str "  ") = []) ∧
    (apiCreateMemory (str "m1") (str "p") ⟨str "  ", [str "a"]⟩ [] =
      (Except.error ⟨400, str "content is required"⟩, []) ∧
    (listMemories (apiCreateMemory (str "m1") (str "p")
        ⟨str "  ", [str "a"]⟩ []).2).length = (listMemories []).length ∧
    mcpHandle (fun _ _ => []) (str "m1") (str "p")
      ⟨some (str "tools/call"), some (str "1"),
        some ⟨none, none, some (str "memory.store"), none,
          some ⟨some (str "  "), some [str "a"], none, none, none⟩⟩⟩ [] =
      (HttpResp.jsonOk (some (str "1"))
        (.toolText (str "content is required") true), [])) :=
  ⟨⟨by decide, by decide⟩,
    store_blank_content_rejected (str "p") (str "p") (str "m1") (str "1")
      ⟨str "  ", [str "a"]⟩ [] (fun _ _ => []) (by decide) (by decide)⟩

/-- C6: an update supplying neither content nor tags fails with a 400
validation error on the REST route and a tool-level `isError` result on the
JSON-RPC route; the collection (hence the stored record) is unchanged. -/
theorem update_nothing_rejected (codename cn memoryId rid freshId : Str)
    (m : MemoryRec) (col : Collection)
    (queryFn : Str → Int → List MemoryRec)
    (hcn : normalizeCodename codename = some cn)
    (hex : getMemoryById col memoryId = some m)
    (hidstrip : pyStrip memoryId = memoryId)
    (hidne : memoryId ≠ []) :
    apiUpdateMemory codename memoryId ⟨none, none⟩ col =
      (Except.error ⟨400, str "content or tags is required"⟩, col) ∧
    mcpHandle queryFn freshId codename
      ⟨some (str "tools/call"), some rid,
        some ⟨none, none, some (str "memory.update"), none,
          some ⟨none, none, none, none, some memoryId⟩⟩⟩ col =
      (HttpResp.jsonOk (some rid)
        (.toolText (str "content or tags is required") true), col) := by
  have hie : memoryId.isEmpty = false := by
    cases hm : memoryId with
    | nil => exact absurd hm hidne
    | cons a as => rfl
  constructor
  · simp only [apiUpdateMemory, hcn]
    rfl
  · simp only [mcpHandle, hcn, Option.getD_some, hidstrip, hie, mcpOk, if_true,
      if_false, Option.isNone_none, Bool.and_self]
    rw [if_neg (by decide), if_neg (by decide), if_neg (by decide),
      if_neg (by decide), if_neg (by decide), if_neg (by decide),
      if_neg (by decide), if_neg (by decide)]

/-- Witness for C6 at a one-record collection. -/
theorem update_nothing_rejected_witness :
    (normalizeCodename (str "p") = some (str "p") ∧
      getMemoryById [⟨str "m1", str "x", some (tagsToMetadata [str "a"])⟩]
        (str "m1") = some ⟨str "m1", str "x", [str "a"]⟩ ∧
      pyStrip (str "m1") = str "m1" ∧ str "m1" ≠ []) ∧
    (apiUpdateMemory (str "p") (str "m1") ⟨none, none⟩
        [⟨str "m1", str "x", some (tagsToMetadata [str "a"])⟩] =
      (Except.error ⟨400, str "content or tags is required"⟩,
        [⟨str "m1", str "x", some (tagsToMetadata [str "a"])⟩]) ∧
    mcpHandle (fun _ _ => []) (str "f") (str "p")
      ⟨some (str "tools/call"), some (str "1"),
        some ⟨none, none, some (str "memory.update"), none,
          some ⟨none, none, none, none, some (str "m1")⟩⟩⟩
        [⟨str "m1", str "x", some (tagsToMetadata [str "a"])⟩] =
      (HttpResp.jsonOk (some (str "1"))
        (.toolText (str "content or tags is required") true),
        [⟨str "m1", str "x", some (tagsToMetadata [str "a"])⟩])) :=
  ⟨⟨by decide, by decide, by decide, by decide⟩,
    update_nothing_rejected (str "p") (str "p") (str "m1") (str "1") (str "f")
      ⟨str "m1", str "x", [str "a"]⟩
      [⟨str "m1", str "x", some (tagsToMetadata [str "a"])⟩]
      (fun _ _ => []) (by decide) (by decide) (by decide) (by decide)⟩

/-- C7: a partial update of an existing record applies exactly the supplied
fields, keeps every unsupplied field's previous value, keeps the id, and
returns the re-read stored state. -/
theorem update_partial_fields (col : Collection) (memoryId : Str)
    (c? : Option Str) (t? : Option (List Str)) (m : MemoryRec)
    (hex : getMemoryById col memoryId = some m)
    (honly : c? = none ∨ t? = none) :
    ∃ r col',
      updateMemory col memoryId c? t? = (some r, col') ∧
      r.id = m.id ∧
      (∀ c, c? = some c → r.content = c) ∧
      (c? = none → r.content = m.content) ∧
      (t? = none → r.tags = m.tags) ∧
      (∀ ts, t? = some ts → (∀ t ∈ ts, ',' ∉ t) →
        r.tags = normalizeTags (some ts)) ∧
      getMemoryById col' memoryId = some r := by
  obtain ⟨e, hfind, hm⟩ : ∃ e, colFind col memoryId = some e ∧
      m = serializeMemory e.eid e.doc e.meta := by
    unfold getMemoryById at hex
    cases hf : colFind col memoryId with
    | none => rw [hf] at hex; exact absurd hex (by simp)
    | some e =>
      simp only [hf] at hex
      exact ⟨e, rfl, by injection hex with h2; exact h2.symm⟩
  rw [updateMemory_spec col memoryId c? t? e hfind]
  refine ⟨_, _, rfl, ?_, ?_, ?_, ?_, ?_, ?_⟩
  · rw [hm]; rfl
  · intro c hc; subst hc; rfl
  · intro h; subst h; rw [hm]; rfl
  · intro h
    subst h
    rw [hm]
    simp only [serializeMemory]
    exact metadataToTags_reencode e.meta
  · intro ts hts hcomma
    subst hts
    exact normalizeTags_roundtrip ts hcomma
  · unfold getMemoryById
    rw [colFind_update hfind]
    rfl

/-- Witness for C7: update only the content of an existing record. -/
theorem update_partial_fields_witness :
    (getMemoryById [⟨str "m1", str "old", some (tagsToMetadata [str "a"])⟩]
        (str "m1") = some ⟨str "m1", str "old", [str "a"]⟩ ∧
      (some (str "new") = none ∨ (none : Option (List Str)) = none)) ∧
    (∃ r col',
      updateMemory [⟨str "m1", str "old", some (tagsToMetadata [str "a"])⟩]
          (str "m1") (some (str "new")) none = (some r, col') ∧
      r.id = (⟨str "m1", str "old", [str "a"]⟩ : MemoryRec).id ∧
      (∀ c, some (str "new") = some c → r.content = c) ∧
      (some (str "new") = none →
        r.content = (⟨str "m1", str "old", [str "a"]⟩ : MemoryRec).content) ∧
      ((none : Option (List Str)) = none →
        r.tags = (⟨str "m1", str "old", [str "a"]⟩ : MemoryRec).tags) ∧
      (∀ ts, (none : Option (List Str)) = some ts → (∀ t ∈ ts, ',' ∉ t) →
        r.tags = normalizeTags (some ts)) ∧
      getMemoryById col' (str "m1") = some r) :=
  ⟨⟨by decide, Or.inr rfl⟩,
    update_partial_fields [⟨str "m1", str "old", some (tagsToMetadata [str "a"])⟩]
      (str "m1") (some (str "new")) none ⟨str "m1", str "old", [str "a"]⟩
      (by decide) (Or.inr rfl)⟩

/-- C8: deleting an existing record returns true and removes it; a second
delete of the same id returns false and leaves the store untouched.  The
REST route answers `{"deleted": true}` and then 404 accordingly. -/
theorem delete_twice (codename cn memoryId : Str) (m : MemoryRec)
    (col : Collection)
    (hcn : normalizeCodename codename = some cn)
    (hex : getMemoryById col memoryId = some m) :
    deleteMemory col memoryId =
      (true, col.filter (fun e => !(decide (e.eid = memoryId)))) ∧
    getMemoryById (deleteMemory col memoryId).2 memoryId = none ∧
    deleteMemory (deleteMemory col memoryId).2 memoryId =
      (false, (deleteMemory col memoryId).2) ∧
    apiDeleteMemory codename memoryId col =
      (Except.ok (), (deleteMemory col memoryId).2) ∧
    apiDeleteMemory codename memoryId (deleteMemory col memoryId).2 =
      (Except.error ⟨404, str "memory not found"⟩,
        (deleteMemory col memoryId).2) := by
  have h1 : deleteMemory col memoryId =
      (true, col.filter (fun e => !(decide (e.eid = memoryId)))) := by
    simp only [deleteMemory, hex]
  have h2 : getMemoryById (col.filter (fun e => !(decide (e.eid = memoryId))))
      memoryId = none := by
    unfold getMemoryById
    rw [colFind_filter_ne]
  have h3 : deleteMemory (col.filter (fun e => !(decide (e.eid = memoryId))))
      memoryId = (false, col.filter (fun e => !(decide (e.eid = memoryId)))) := by
    simp only [deleteMemory, h2]
  refine ⟨h1, ?_, ?_, ?_, ?_⟩ <;> simp only [h1]
  · exact h2
  · exact h3
  · simp only [apiDeleteMemory, hcn, h1]
  · simp only [apiDeleteMemory, hcn, h3]

/-- Witness for C8 at a one-record collection. -/
theorem delete_twice_witness :
    (normalizeCodename (str "p") = some (str "p") ∧
      getMemoryById [⟨str "m1", str "x", some (tagsToMetadata [])⟩] (str "m1") =
        some ⟨str "m1", str "x", []⟩) ∧
    (deleteMemory [⟨str "m1", str "x", some (tagsToMetadata [])⟩] (str "m1") =
      (true, List.filter (fun e => !(decide (e.eid = str "m1")))
        [⟨str "m1", str "x", some (tagsToMetadata [])⟩]) ∧
    getMemoryById (deleteMemory [⟨str "m1", str "x", some (tagsToMetadata [])⟩]
        (str "m1")).2 (str "m1") = none ∧
    deleteMemory (deleteMemory [⟨str "m1", str "x", some (tagsToMetadata [])⟩]
        (str "m1")).2 (str "m1") =
      (false, (deleteMemory [⟨str "m1", str "x", some (tagsToMetadata [])⟩]
        (str "m1")).2) ∧
    apiDeleteMemory (str "p") (str "m1")
        [⟨str "m1", str "x", some (tagsToMetadata [])⟩] =
      (Except.ok (), (deleteMemory [⟨str "m1", str "x", some (tagsToMetadata [])⟩]
        (str "m1")).2) ∧
    apiDeleteMemory (str "p") (str "m1")
        (deleteMemory [⟨str "m1", str "x", some (tagsToMetadata [])⟩]
          (str "m1")).2 =
      (Except.error ⟨404, str "memory not found"⟩,
        (deleteMemory [⟨str "m1", str "x", some (tagsToMetadata [])⟩]
          (str "m1")).2)) :=
  ⟨⟨by decide, by decide⟩,
    delete_twice (str "p") (str "p") (str "m1") ⟨str "m1", str "x", []⟩
      [⟨str "m1", str "x", some (tagsToMetadata [])⟩] (by decide) (by decide)⟩

/-- C9: updating an existing record with content that strips to empty (tags
absent) succeeds and stores the empty content; the non-empty-content rule is
enforced only at creation. -/
theorem update_blank_content_allowed (codename cn memoryId c : Str)
    (m : MemoryRec) (col : Collection)
    (hcn : normalizeCodename codename = some cn)
    (hex : getMemoryById col memoryId = some m)
    (hblank : pyStrip c = []) :
    ∃ col',
      apiUpdateMemory codename memoryId ⟨some c, none⟩ col =
        (Except.ok ⟨m.id, [], m.tags⟩, col') ∧
      getMemoryById col' memoryId = some ⟨m.id, [], m.tags⟩ := by
  obtain ⟨e, hfind, hm⟩ : ∃ e, colFind col memoryId = some e ∧
      m = serializeMemory e.eid e.doc e.meta := by
    unfold getMemoryById at hex
    cases hf : colFind col memoryId with
    | none => rw [hf] at hex; exact absurd hex (by simp)
    | some e =>
      simp only [hf] at hex
      exact ⟨e, rfl, by injection hex with h2; exact h2.symm⟩
  have hspec := updateMemory_spec col memoryId (some (pyStrip c)) none e hfind
  rw [hblank] at hspec
  refine ⟨(updateMemory col memoryId (some []) none).2, ?_, ?_⟩
  · simp only [apiUpdateMemory, hcn, Option.isNone_some, Option.isNone_none,
      Bool.false_and, Option.map_some', Option.map_none']
    rw [if_neg (by decide)]
    rw [hblank, hspec]
    rw [show (⟨e.eid,
        (match (some ([] : Str)) with | some c => c | none => e.doc),
        metadataToTags (some (tagsToMetadata
          (match (none : Option (List Str)) with
           | some t => normalizeTags (some t)
           | none => metadataToTags e.meta)))⟩ : MemoryRec) =
        ⟨m.id, [], m.tags⟩ from by
      rw [hm]
      simp only [serializeMemory, metadataToTags_reencode]]
  · rw [hspec]
    unfold getMemoryById
    rw [colFind_update hfind]
    rw [hm]
    simp only [serializeMemory, metadataToTags_reencode]

/-- Witness for C9: blank-content update of a one-record collection. -/
theorem update_blank_content_allowed_witness :
    (normalizeCodename (str "p") = some (str "p") ∧
      getMemoryById [⟨str "m1", str "x", some (tagsToMetadata [str "a"])⟩]
        (str "m1") = some ⟨str "m1", str "x", [str "a"]⟩ ∧
      pyStrip (str "  ") = []) ∧
    (∃ col',
      apiUpdateMemory (str "p") (str "m1") ⟨some (str "  "), none⟩
          [⟨str "m1", str "x", some (tagsToMetadata [str "a"])⟩] =
        (Except.ok ⟨(⟨str "m1", str "x", [str "a"]⟩ : MemoryRec).id, [],
          (⟨str "m1", str "x", [str "a"]⟩ : MemoryRec).tags⟩, col') ∧
      getMemoryById col' (str "m1") =
        some ⟨(⟨str "m1", str "x", [str "a"]⟩ : MemoryRec).id, [],
          (⟨str "m1", str "x", [str "a"]⟩ : MemoryRec).tags⟩) :=
  ⟨⟨by decide, by decide, by decide⟩,
    update_blank_content_allowed (str "p") (str "p") (str "m1") (str "  ")
      ⟨str "m1", str "x", [str "a"]⟩
      [⟨str "m1", str "x", some (tagsToMetadata [str "a"])⟩]
      (by decide) (by decide) (by decide)⟩

/-- C10: in the JSON-RPC `memory.search` tool call, an `n_results` argument
that is absent (or JSON null, both parsed to no value) or `0` is coerced to
the default `5`, so the store is queried for up to five records. -/
theorem search_n_results_default (codename cn freshId rid qs : Str)
    (nArg : Option Int) (col : Collection)
    (queryFn : Str → Int → List MemoryRec)
    (hcn : normalizeCodename codename = some cn)
    (hq : pyStrip qs ≠ [])
    (hn : nArg = none ∨ nArg = some 0) :
    pyIntOr nArg 5 = 5 ∧
    mcpHandle queryFn freshId codename
      ⟨some (str "tools/call"), some rid,
        some ⟨none, none, some (str "memory.search"), none,
          some ⟨none, none, some qs, nArg, none⟩⟩⟩ col =
      (HttpResp.jsonOk (some rid)
        (.searchResult (pyStrip qs) (queryFn (pyStrip qs) 5)), col) := by
  have h5 : pyIntOr nArg 5 = 5 := by
    rcases hn with rfl | rfl <;> rfl
  have hqe : (pyStrip qs).isEmpty = false := by
    cases hsc : pyStrip qs with
    | nil => exact absurd hsc hq
    | cons a as => rfl
  refine ⟨h5, ?_⟩
  simp only [mcpHandle, hcn, Option.getD_some, hqe, mcpOk, if_true, h5]
  rw [if_neg (by decide), if_neg (by decide), if_neg (by decide),
    if_neg (by decide), if_neg (by decide), if_neg (by decide),
    if_neg (by decide)]

/-- Witness for C10 at `n_results = 0`. -/
theorem search_n_results_default_witness :
    (normalizeCodename (str "p") = some (str "p") ∧
      pyStrip (str "hi") ≠ [] ∧
      ((some 0 : Option Int) = none ∨ (some 0 : Option Int) = some 0)) ∧
    (pyIntOr (some 0) 5 = 5 ∧
    mcpHandle (fun _ _ => []) (str "f") (str "p")
      ⟨some (str "tools/call"), some (str "1"),
        some ⟨none, none, some (str "memory.search"), none,
          some ⟨none, none, some (str "hi"), some 0, none⟩⟩⟩ [] =
      (HttpResp.jsonOk (some (str "1"))
        (.searchResult (pyStrip (str "hi"))
          ((fun _ _ => []) (pyStrip (str "hi")) 5)), [])) :=
  ⟨⟨by decide, by decide, Or.inr rfl⟩,
    search_n_results_default (str "p") (str "p") (str "f") (str "1") (str "hi")
      (some 0) [] (fun _ _ => []) (by decide) (by decide) (Or.inr rfl)⟩

end MCPMemory
